import Mathlib

/-!
Verification of the `openid` Go package (file `openid.go`) against its
natural-language specification.  Go strings are modelled as `List Char`
(the operations used by the code — splitting at a found substring index,
single-character searches, ASCII prefix tests — all cut at character
boundaries, so the character-level model agrees with Go's byte-level
strings).  Network and parser collaborators (`http.Post`, `http.Client.Do`,
`encoding/xml`, the HTML parser) are external per the spec and are modelled
as oracle parameters describing their outcome.
-/

namespace OpenId

/-- Go strings, modelled at character level. -/
abbrev Str := List Char

/-- Characters of a Lean string literal, for writing concrete Go strings. -/
def str (s : String) : Str := s.toList

/-- Go `strings.HasPrefix(t, p)` (the prefix is the first argument here). -/
def hasPrefixStr : Str → Str → Bool
  | [], _ => true
  | _ :: _, [] => false
  | a :: as, b :: bs => a = b && hasPrefixStr as bs

/-- Go `strings.ContainsRune(s, c)` / `strings.Contains(s, <single char>)`. -/
def containsChar (c : Char) (s : Str) : Bool :=
  s.any (fun x => x = c)

/-- Go `strings.Split(s, <single char sep>)`: all parts, empties included. -/
def splitOnChar (sep : Char) : Str → List Str
  | [] => [[]]
  | c :: cs =>
    if c = sep then [] :: splitOnChar sep cs
    else
      match splitOnChar sep cs with
      | [] => [[c]]
      | t :: ts => (c :: t) :: ts

/-- Go `strings.SplitN(s, <single char sep>, 2)`: the part before the first
occurrence of `sep` and everything after it (which may itself contain
`sep`).  Only used under a `containsChar` guard, as in the source. -/
def splitFirstAt (sep : Char) : Str → Str × Str
  | [] => ([], [])
  | c :: cs =>
    if c = sep then ([], cs)
    else
      let p := splitFirstAt sep cs
      (c :: p.1, p.2)

/-- Embeds `keyValueForm` (openid.go lines 51-60): split the corpus on
newlines; for each line containing a colon, split on the first colon and
store value under key in a Go map (later lines overwrite earlier ones);
lines without a colon are skipped.  The Go map is modelled as a total
function defaulting to the empty string, matching Go's zero-value lookup
`kVs["ns"]`. -/
def keyValueForm (corpus : Str) : Str → Str :=
  (splitOnChar '\n' corpus).foldl
    (fun o v =>
      if containsChar ':' v then
        fun k => if k = (splitFirstAt ':' v).1 then (splitFirstAt ':' v).2 else o k
      else o)
    (fun _ => [])

/-- Spec-side description of one line's contribution to the mapping at key
`k`: `some value` when the line contains a colon and its part before the
first colon is `k`, `none` otherwise. -/
def lineEntry (k v : Str) : Option Str :=
  if containsChar ':' v && decide ((splitFirstAt ':' v).1 = k) then
    some (splitFirstAt ':' v).2
  else none

/-! ### Constants of the source (openid.go lines 31-34 and string literals) -/

/-- Literal `"=@+$!("` (openid.go line 32). -/
def xriGlobalContextSymbol : Str := str "=@+$!("

/-- Literal `"application/xrds+xml"` (openid.go line 33). -/
def xrdsMime : Str := str "application/xrds+xml"

/-- Key `"openid.op_endpoint"`. -/
def opEndpointKey : Str := str "openid.op_endpoint"

/-- Key `"openid.mode"`. -/
def modeKey : Str := str "openid.mode"

/-- Key `"openid.claimed_id"`. -/
def claimedIdKey : Str := str "openid.claimed_id"

/-- Literal `"id_res"`. -/
def idResValue : Str := str "id_res"

/-- Literal `"check_authentication"`. -/
def checkAuthValue : Str := str "check_authentication"

/-- Key `"ns"` of the key-value verification response. -/
def nsKey : Str := str "ns"

/-- Key `"is_valid"` of the key-value verification response. -/
def isValidKey : Str := str "is_valid"

/-- Literal `"http://specs.openid.net/auth/2.0"`. -/
def nsValue : Str := str "http://specs.openid.net/auth/2.0"

/-- Literal `"true"`. -/
def trueValue : Str := str "true"

/-! ### `url.Values` and the `Validate` entry point (openid.go lines 119-185) -/

/-- Go `url.Values`: a map from keys to slices of strings, modelled as a
total function (Go map lookup of an absent key yields the zero value, the
empty slice). -/
def Values : Type := Str → List Str

/-- Go `url.Values.Get`: first element of the slice at the key, or the
empty string when the key is absent or its slice empty. -/
def valuesGet (v : Values) (k : Str) : Str :=
  match v k with
  | [] => []
  | x :: _ => x

/-- Go `url.Values.Set`: replaces the slice at the key with a one-element
slice, mutating the map in place; modelled as the updated map value. -/
def valuesSet (v : Values) (k val : Str) : Values :=
  fun q => if q = k then [val] else v q

/-- The `validateError` enumeration (openid.go lines 119-126), plus a tag
for the error returned by `ioutil.ReadAll` (an underlying error value, not
a `validateError`, in the source). -/
inductive ValidateError
  | NO_OP_ENDPOINT
  | DIFFERING_ENDPOINT
  | NS_INCORRECT
  | INCORRECT_MODE
  | READ_FAILED
deriving DecidableEq

/-- Outcome of the external call `http.Post` followed by
`ioutil.ReadAll(resp.Body)`, the two fallible external steps of `Validate`:
the transport may fail (Go: `err != nil` and `resp == nil`), the body read
may fail, or a response body string is obtained. -/
inductive PostOutcome
  | transportFailure
  | readFailure
  | success (body : Str)

/-- What `Validate` does on one path: return the triple
`(grant, id, err)`, or panic at runtime. -/
inductive ValidateOutcome
  | returns (grant : Bool) (id : Str) (error : Option ValidateError)
  | panics
deriving DecidableEq

/-- One run of `Validate`: its outcome, the final state of the caller's
`url.Values` map (Go maps are passed by reference, so this is the state the
caller observes afterwards), and whether the `http.Post` call was reached. -/
structure ValidateRun where
  outcome : ValidateOutcome
  finalValues : Values
  posted : Bool

/-- Embeds `Validate` (openid.go lines 149-185) with the network modelled
by the `post` oracle.  Faithful points: the endpoint and mode checks happen
before the POST; `values.Set` mutates the caller's map (no clone is made);
`defer resp.Body.Close()` is executed before the `err != nil` check, so a
transport failure (where Go's `http.Post` returns a nil response) panics on
the nil dereference `resp.Body`; the namespace check compares the parsed
`ns` entry with the exact literal; `grant` is the comparison of `is_valid`
with `"true"`; `id` is read from the (mode-mutated) caller map. -/
def validate (values : Values) (post : PostOutcome) : ValidateRun :=
  let endpoint := valuesGet values opEndpointKey
  if endpoint = [] then
    ⟨.returns false [] (some .NO_OP_ENDPOINT), values, false⟩
  else if ¬(valuesGet values modeKey = idResValue) then
    ⟨.returns false [] (some .INCORRECT_MODE), values, false⟩
  else
    let values2 := valuesSet values modeKey checkAuthValue
    match post with
    | .transportFailure => ⟨.panics, values2, true⟩
    | .readFailure => ⟨.returns false [] (some .READ_FAILED), values2, true⟩
    | .success body =>
      let kVs := keyValueForm body
      if ¬(kVs nsKey = nsValue) then
        ⟨.returns false [] (some .NS_INCORRECT), values2, true⟩
      else
        ⟨.returns (decide (kVs isValidKey = trueValue)) (valuesGet values2 claimedIdKey) none,
          values2, true⟩

/-! ### Identifier normalization, the first phase of `RedirectURI`
(openid.go lines 71-89) -/

/-- Embeds `runeIs` (openid.go lines 265-272). -/
def runeIs (a : Char) (b : Str) : Bool :=
  b.any (fun v => v = a)

/-- Result of the normalization phase: the identifier string handed to
`discover` at line 91, or a runtime panic. -/
inductive NormResult
  | panics
  | ok (identifier : Str)
deriving DecidableEq

/-- Embeds the normalization phase of `RedirectURI` (openid.go lines
71-89), producing the identifier that is passed to `discover`.  Faithful
points: the `xri://` prefix is stripped first; `identifier[0]` on an empty
string is a Go index-out-of-range panic; an XRI global context symbol
first character prepends `http://xri.net/`, otherwise a missing
`http://`/`https://` scheme prepends `http://`; a `#` found at byte index
`index` leads to `identifier = identifier[index:]` — the suffix FROM the
`#`, as written in the source (its comment announces stripping the
fragment, the code keeps it and drops everything before it). -/
def normalizeIdentifier (identifier0 : Str) : NormResult :=
  let i1 := if hasPrefixStr (str "xri://") identifier0 then identifier0.drop 6 else identifier0
  match i1 with
  | [] => .panics
  | c :: _ =>
    let i2 :=
      if runeIs c xriGlobalContextSymbol then str "http://xri.net/" ++ i1
      else if ¬(hasPrefixStr (str "http://") i1) && ¬(hasPrefixStr (str "https://") i1) then
        str "http://" ++ i1
      else i1
    let i3 :=
      match i2.findIdx? (fun ch => ch = '#') with
      | some index => i2.drop index
      | none => i2
    .ok i3

/-! ### URL query encoding (`url.Values.Encode`) -/

/-- UTF-8 bytes of a character, as Go ranges over the bytes of a string. -/
def utf8Bytes (c : Char) : List Nat :=
  let n := c.toNat
  if n < 128 then [n]
  else if n < 2048 then [192 + n / 64, 128 + n % 64]
  else if n < 65536 then [224 + n / 4096, 128 + (n / 64) % 64, 128 + n % 64]
  else [240 + n / 262144, 128 + (n / 4096) % 64, 128 + (n / 64) % 64, 128 + n % 64]

/-- Uppercase hexadecimal digit, as Go's `"0123456789ABCDEF"` table. -/
def hexDigit (n : Nat) : Char :=
  if n < 10 then Char.ofNat (48 + n) else Char.ofNat (55 + n)

/-- Go `url.QueryEscape` on one byte: alphanumerics and `-_.~` are kept,
space becomes `+`, every other byte becomes `%XX` with uppercase hex. -/
def queryEscapeByte (b : Nat) : List Char :=
  if (65 ≤ b && b ≤ 90) || (97 ≤ b && b ≤ 122) || (48 ≤ b && b ≤ 57)
      || b = 45 || b = 95 || b = 46 || b = 126 then
    [Char.ofNat b]
  else if b = 32 then ['+']
  else ['%', hexDigit (b / 16), hexDigit (b % 16)]

/-- Go `url.QueryEscape`: escape every byte of the UTF-8 form. -/
def queryEscape (s : Str) : Str :=
  (s.flatMap utf8Bytes).flatMap queryEscapeByte

/-- One `key=value` component of an encoded query. -/
def encodePair (p : Str × Str) : Str :=
  queryEscape p.1 ++ ['='] ++ queryEscape p.2

/-- Join with `&`, Go `strings.Join(parts, "&")`. -/
def joinAmp : List Str → Str
  | [] => []
  | [x] => x
  | x :: y :: rest => x ++ ['&'] ++ joinAmp (y :: rest)

/-- Byte-lexicographic string order used by `url.Values.Encode`'s
`sort.Strings` on the keys (UTF-8 byte order equals code-point order). -/
def strLeB : Str → Str → Bool
  | [], _ => true
  | _ :: _, [] => false
  | a :: as, b :: bs => if a = b then strLeB as bs else decide (a.toNat < b.toNat)

/-- Order on key-value pairs by key, for sorting in `Encode`. -/
def keyLe (p q : Str × Str) : Prop := strLeB p.1 q.1 = true

instance : DecidableRel keyLe := fun p q => inferInstanceAs (Decidable (strLeB p.1 q.1 = true))

/-- Embeds `url.Values.Encode` for single-valued entries: sort by key,
escape key and value, join `key=value` components with `&`. -/
def valuesEncode (l : List (Str × Str)) : Str :=
  joinAmp ((l.insertionSort keyLe).map encodePair)

/-! ### The redirect-building tail of `RedirectURI` (openid.go lines
101-116), after `discover` and `getIdentifiers` have produced `endpoint`
and `Claimed` -/

/-- Literal `"http://specs.openid.net/auth/2.0/identifier_select"`. -/
def identifierSelect : Str := str "http://specs.openid.net/auth/2.0/identifier_select"

/-- The six query parameters as written in the `url.Values` literal of
openid.go lines 109-116 (map iteration order is irrelevant: `Encode`
sorts by key). -/
def redirectPairs (claimed realm returnPoint : Str) : List (Str × Str) :=
  [ (claimedIdKey, claimed),
    (str "openid.identity", claimed),
    (str "openid.realm", realm),
    (str "openid.return_to", realm ++ returnPoint),
    (modeKey, str "checkid_setup"),
    (str "openid.ns", nsValue) ]

/-- Embeds openid.go lines 101-116: substitute the identifier-select
sentinel for an empty claimed identity, append `?` when the endpoint
contains no `?` and `&` otherwise, then append the encoded query. -/
def buildRedirect (endpoint claimed realm returnPoint : Str) : Str :=
  let c := if claimed = [] then identifierSelect else claimed
  let ep := if ¬(containsChar '?' endpoint) then endpoint ++ ['?'] else endpoint ++ ['&']
  ep ++ valuesEncode (redirectPairs c realm returnPoint)

/-! ### XRDS extraction: `getIdentifiers` (openid.go lines 235-263) -/

/-- One `Service` entry of the unmarshalled XRDS document: `Type`, `URI`
and the `priority` attribute (parsed but never read afterwards). -/
structure Service where
  type : Str
  uri : Str
  priority : Nat
deriving DecidableEq

/-- Literal `"http://specs.openid.net/auth/2.0/server"`. -/
def serverType : Str := str "http://specs.openid.net/auth/2.0/server"

/-- Literal `"http://specs.openid.net/auth/2.0/signon"`. -/
def signonType : Str := str "http://specs.openid.net/auth/2.0/signon"

/-- Embeds `getIdentifiers` (openid.go lines 235-263) downstream of the
external XML parser: `parseResult` is the service list the unmarshaller
filled in, `none` when `xml.Unmarshal` failed — the source discards the
unmarshal error, so a failed parse leaves the zero-value document (no
services) and the loop runs over nothing.  The loop sets `OP` on every
entry whose type starts with the server type and `Claimed` on every entry
whose type starts with the sign-on type, later entries overwriting
earlier ones. -/
def getIdentifiers (parseResult : Option (List Service)) : Str × Str :=
  let services := parseResult.getD []
  services.foldl
    (fun acc v =>
      if hasPrefixStr serverType v.type then (v.uri, acc.2)
      else if hasPrefixStr signonType v.type then (acc.1, v.uri)
      else acc)
    ([], [])

/-! ### One invocation of `discover` (openid.go lines 187-219) -/

/-- The response obtained by one `discover` invocation's GET, together
with the outcome of the external HTML parser on its body when the HTML
branch is taken: `parse = none` means `p.Parse()` failed; `parse = some
(some loc)` means parsing succeeded and the `X-XRDS-Location` meta tag
with a `content` attribute `loc` was found; `parse = some none` means
parsing succeeded but no such tag/attribute was found.  `bodyId`
identifies the response body resource fetched by this invocation. -/
structure HttpResp where
  contentType : Str
  xrdsLocation : Str
  parse : Option (Option Str)
  bodyId : Nat
deriving DecidableEq

/-- The exit taken by one `discover` invocation: return the body as the
located Yadis document (no error), recurse on the header location, recurse
on the HTML meta location, return the HTML parse error (no body in the
return value), or return the body together with the "Could not locate
Yadis document!" error. -/
inductive DiscoverExit
  | yadisBody (bodyId : Nat)
  | recurseHeader (uri : Str)
  | recurseMeta (uri : Str)
  | htmlParseError
  | failWithBody (bodyId : Nat)
deriving DecidableEq

/-- Embeds one invocation of `discover` (openid.go lines 187-219) after a
successful GET: the chosen exit, paired with the list of body identifiers
this invocation closes before returning — the function body contains no
`Close` call (only `getIdentifiers`, the eventual consumer of a returned
body, closes it), so that list is empty on every branch. -/
def discoverStep (resp : HttpResp) : DiscoverExit × List Nat :=
  if hasPrefixStr xrdsMime resp.contentType then
    (.yadisBody resp.bodyId, [])
  else if ¬(resp.xrdsLocation = []) then
    (.recurseHeader resp.xrdsLocation, [])
  else if hasPrefixStr (str "text/html") resp.contentType then
    match resp.parse with
    | none => (.htmlParseError, [])
    | some (some loc) => (.recurseMeta loc, [])
    | some none => (.failWithBody resp.bodyId, [])
  else
    (.failWithBody resp.bodyId, [])

/-! ### Theorems -/

/-- For a nonempty list, prepending an element does not change the last
element; for an empty list the default moves accordingly. -/
theorem getLast?_getD_cons {α : Type} (a d : α) (l : List α) :
    ((a :: l).getLast?).getD d = (l.getLast?).getD a := by
  cases l with
  | nil => rfl
  | cons x xs =>
    rw [List.getLast?_cons_cons]
    cases h : (x :: xs).getLast? with
    | none => exact absurd (List.getLast?_eq_none_iff.mp h) (by simp)
    | some y => rfl

/-- `splitFirstAt` cuts at the first occurrence of the separator: the
input is the part before, the separator, then the part after, and the part
before contains no separator. -/
theorem splitFirstAt_spec (sep : Char) (v : Str) (h : containsChar sep v = true) :
    v = (splitFirstAt sep v).1 ++ sep :: (splitFirstAt sep v).2 ∧
      containsChar sep (splitFirstAt sep v).1 = false := by
  induction v with
  | nil => simp [containsChar] at h
  | cons c cs ih =>
    by_cases hc : c = sep
    · subst hc
      simp [splitFirstAt, containsChar]
    · have h' : containsChar sep cs = true := by
        simpa [containsChar, hc] using h
      obtain ⟨h1, h2⟩ := ih h'
      refine ⟨?_, ?_⟩
      · simp only [splitFirstAt, if_neg hc]
        exact congrArg (fun t => c :: t) h1
      · simp only [splitFirstAt, if_neg hc]
        simpa [containsChar, hc] using h2

/-- The fold of `keyValueForm`, evaluated at a key, is the last
contribution of a line for that key, defaulting to the initial map. -/
theorem keyValueForm_foldl (lines : List Str) (init : Str → Str) (k : Str) :
    (lines.foldl
        (fun o v =>
          if containsChar ':' v then
            fun q => if q = (splitFirstAt ':' v).1 then (splitFirstAt ':' v).2 else o q
          else o)
        init) k
      = ((lines.filterMap (lineEntry k)).getLast?).getD (init k) := by
  induction lines generalizing init with
  | nil => simp
  | cons v vs ih =>
    rw [List.foldl_cons, ih]
    by_cases hc : containsChar ':' v = true
    · by_cases hk : (splitFirstAt ':' v).1 = k
      · rw [List.filterMap_cons_some (b := (splitFirstAt ':' v).2) (by simp [lineEntry, hc, hk]),
          getLast?_getD_cons]
        simp [hc, hk.symm]
      · rw [List.filterMap_cons_none (by simp [lineEntry, hc, hk])]
        have hkk : ¬(k = (splitFirstAt ':' v).1) := fun h => hk h.symm
        simp only [if_pos hc, if_neg hkk]
    · rw [List.filterMap_cons_none (by simp [lineEntry, hc])]
      simp only [if_neg hc]

/-- Claim C10: `keyValueForm` splits each newline-delimited line on the
first colon only (so a value may itself contain colons), ignores lines
with no colon, and when several lines share a key the mapping holds the
value of the last such line, earlier occurrences being overwritten. -/
theorem keyValueForm_last_wins (corpus k : Str) :
    keyValueForm corpus k
        = (((splitOnChar '\n' corpus).filterMap (lineEntry k)).getLast?).getD []
      ∧ ∀ v : Str, containsChar ':' v = true →
          v = (splitFirstAt ':' v).1 ++ ':' :: (splitFirstAt ':' v).2
          ∧ containsChar ':' (splitFirstAt ':' v).1 = false := by
  refine ⟨?_, fun v hv => splitFirstAt_spec ':' v hv⟩
  exact keyValueForm_foldl (splitOnChar '\n' corpus) (fun _ => []) k

/-- Claim C10, witness: the statement instantiated on a concrete corpus
where the key `key` occurs twice (the later value `c` wins) and a value
contains a colon. -/
theorem keyValueForm_last_wins_witness :
    (keyValueForm (str "ns:v\nskip\nkey:a:b\nkey:c") (str "key")
        = (((splitOnChar '\n' (str "ns:v\nskip\nkey:a:b\nkey:c")).filterMap
            (lineEntry (str "key"))).getLast?).getD [])
      ∧ (str "key:a:b") = (splitFirstAt ':' (str "key:a:b")).1
          ++ ':' :: (splitFirstAt ':' (str "key:a:b")).2
      ∧ containsChar ':' (splitFirstAt ':' (str "key:a:b")).1 = false := by
  obtain ⟨h1, h2⟩ := keyValueForm_last_wins (str "ns:v\nskip\nkey:a:b\nkey:c") (str "key")
  exact ⟨h1, (h2 (str "key:a:b") (by decide)).1, (h2 (str "key:a:b") (by decide)).2⟩

/-! ### Theorems about `Validate` -/

/-- Reading a key other than the one just set sees the old map. -/
theorem valuesGet_set_ne (v : Values) (k k2 val : Str) (h : ¬(k2 = k)) :
    valuesGet (valuesSet v k val) k2 = valuesGet v k2 := by
  simp [valuesGet, valuesSet, h]

/-- A concrete assertion parameter set passing the endpoint and mode
checks. -/
def exValues : Values := fun k =>
  if k = opEndpointKey then [str "https://op.example/auth"]
  else if k = modeKey then [idResValue]
  else if k = claimedIdKey then [str "https://user.example/id"]
  else []

/-- A concrete assertion parameter set with no `openid.op_endpoint`. -/
def exValuesNoEp : Values := fun k =>
  if k = modeKey then [idResValue] else []

/-- A concrete assertion parameter set whose mode is not `id_res`. -/
def exValuesBadMode : Values := fun k =>
  if k = opEndpointKey then [str "https://op.example/auth"]
  else if k = modeKey then [str "cancel"]
  else []

/-- A concrete verification response body in key-value form. -/
def exBody : Str := str "ns:http://specs.openid.net/auth/2.0\nis_valid:true"

/-- On every path on which `Validate` returns a non-nil error, the
returned grant flag is `false`. -/
theorem validate_error_imp_not_grant (w : Values) (post : PostOutcome)
    (g : Bool) (id : Str) (e : ValidateError)
    (h : (validate w post).outcome = .returns g id (some e)) : g = false := by
  by_cases h1 : valuesGet w opEndpointKey = []
  · simp [validate, h1] at h
    exact h.1
  · by_cases h2 : valuesGet w modeKey = idResValue
    · cases post with
      | transportFailure => simp [validate, h1, h2] at h
      | readFailure =>
        simp [validate, h1, h2] at h
        exact h.1
      | success body =>
        by_cases h3 : keyValueForm body nsKey = nsValue
        · simp [validate, h1, h2, h3] at h
        · simp [validate, h1, h2, h3] at h
          exact h.1
    · simp [validate, h1, h2] at h
      exact h.1

/-- Claim C1: past the endpoint and mode checks, when the verification
response's mapping carries the exact namespace value, `Validate` succeeds
with `grant` true iff the mapping's `is_valid` entry is the literal
`true`, and the returned id is the assertion parameters' own
`openid.claimed_id` (not anything from the response); when `ns` is
missing or different it fails with `NS_INCORRECT`; and whenever `Validate`
returns any error the grant flag is `false`. -/
theorem validate_grant_iff (values : Values) (body : Str)
    (hep : ¬(valuesGet values opEndpointKey = []))
    (hmode : valuesGet values modeKey = idResValue) :
    (keyValueForm body nsKey = nsValue →
      (validate values (.success body)).outcome
        = .returns (decide (keyValueForm body isValidKey = trueValue))
            (valuesGet values claimedIdKey) none)
    ∧ (¬(keyValueForm body nsKey = nsValue) →
      (validate values (.success body)).outcome
        = .returns false [] (some .NS_INCORRECT))
    ∧ ∀ (w : Values) (post : PostOutcome) (g : Bool) (id : Str) (e : ValidateError),
        (validate w post).outcome = .returns g id (some e) → g = false := by
  refine ⟨fun hns => ?_, fun hns => ?_, validate_error_imp_not_grant⟩
  · have hclaim : valuesGet (valuesSet values modeKey checkAuthValue) claimedIdKey
        = valuesGet values claimedIdKey :=
      valuesGet_set_ne values modeKey claimedIdKey checkAuthValue (by decide)
    simp [validate, hep, hmode, hns, hclaim]
  · simp [validate, hep, hmode, hns]

/-- Claim C1, witness: a concrete run in which the namespace matches, the
response asserts validity, and the returned id is the caller's
`openid.claimed_id`. -/
theorem validate_grant_iff_witness :
    (validate exValues (.success exBody)).outcome
      = .returns (decide (keyValueForm exBody isValidKey = trueValue))
          (valuesGet exValues claimedIdKey) none :=
  (validate_grant_iff exValues exBody (by decide) (by decide)).1 (by decide)

/-- Claim C3: the endpoint and mode checks precede any network use — on a
missing or empty `openid.op_endpoint` the run fails with
`NO_OP_ENDPOINT` and the POST is never reached, and on a present endpoint
with a mode other than `id_res` it fails with `INCORRECT_MODE` and the
POST is never reached, whatever the network would have answered. -/
theorem validate_checks_before_post (values : Values) :
    (valuesGet values opEndpointKey = [] →
      ∀ post : PostOutcome,
        (validate values post).outcome = .returns false [] (some .NO_OP_ENDPOINT)
        ∧ (validate values post).posted = false)
    ∧ (¬(valuesGet values opEndpointKey = []) →
        ¬(valuesGet values modeKey = idResValue) →
        ∀ post : PostOutcome,
          (validate values post).outcome = .returns false [] (some .INCORRECT_MODE)
          ∧ (validate values post).posted = false) := by
  refine ⟨fun h1 post => ?_, fun h1 h2 post => ?_⟩
  · simp [validate, h1]
  · simp [validate, h1, h2]

/-- Claim C3, witness: concrete runs — one with no endpoint, one with a
wrong mode — both failing with the right kind and never posting. -/
theorem validate_checks_before_post_witness :
    ((validate exValuesNoEp .readFailure).outcome
        = .returns false [] (some .NO_OP_ENDPOINT)
      ∧ (validate exValuesNoEp .readFailure).posted = false)
    ∧ ((validate exValuesBadMode .readFailure).outcome
        = .returns false [] (some .INCORRECT_MODE)
      ∧ (validate exValuesBadMode .readFailure).posted = false) :=
  ⟨(validate_checks_before_post exValuesNoEp).1 (by decide) .readFailure,
   (validate_checks_before_post exValuesBadMode).2 (by decide) (by decide) .readFailure⟩

/-- Claim C4, counterexample: the caller's collection is NOT unchanged
after `Validate` returns — on a concrete run that reaches the POST, the
caller's map afterwards holds `check_authentication` at `openid.mode`
where it held `id_res` before; `values.Set` was applied to the caller's
map, not to a clone. -/
theorem validate_mutates_counterexample :
    ¬((validate exValues (.success exBody)).finalValues modeKey = exValues modeKey) := by
  decide

/-- Claim C4, amended: `Validate` mutates the caller's collection in
place — once the endpoint and mode checks pass, `openid.mode` is
overwritten to `check_authentication` in the caller's original map (no
clone is made) and every other key is left unchanged. -/
theorem validate_mutates_mode_in_place (values : Values) (post : PostOutcome)
    (hep : ¬(valuesGet values opEndpointKey = []))
    (hmode : valuesGet values modeKey = idResValue) :
    (validate values post).finalValues modeKey = [checkAuthValue]
    ∧ ∀ k : Str, ¬(k = modeKey) → (validate values post).finalValues k = values k := by
  have hfin : (validate values post).finalValues = valuesSet values modeKey checkAuthValue := by
    cases post with
    | transportFailure => simp [validate, hep, hmode]
    | readFailure => simp [validate, hep, hmode]
    | success body =>
      by_cases h3 : keyValueForm body nsKey = nsValue
      · simp [validate, hep, hmode, h3]
      · simp [validate, hep, hmode, h3]
  rw [hfin]
  exact ⟨by simp [valuesSet], fun k hk => by simp [valuesSet, hk]⟩

/-- Claim C4, amended witness: the concrete run seen by the
counterexample, with the overwritten mode and an untouched
`openid.claimed_id`. -/
theorem validate_mutates_mode_in_place_witness :
    (validate exValues (.success exBody)).finalValues modeKey = [checkAuthValue]
    ∧ (validate exValues (.success exBody)).finalValues claimedIdKey
        = exValues claimedIdKey :=
  ⟨(validate_mutates_mode_in_place exValues (.success exBody) (by decide) (by decide)).1,
   (validate_mutates_mode_in_place exValues (.success exBody) (by decide) (by decide)).2
     claimedIdKey (by decide)⟩

/-- Claim C7: on a transport failure past the endpoint and mode checks
(`http.Post` returns a nil response and an error), `Validate` does not
return a wrapped transport error — the `defer resp.Body.Close()` placed
before the error check dereferences the nil response and the run panics. -/
theorem validate_transport_failure_panics :
    (validate exValues .transportFailure).outcome = .panics := by
  decide

/-! ### Theorems about normalization (C2, C8) -/

/-- Claim C2, code evaluation at a failing input: on an identifier with a
fragment, line 88's `identifier = identifier[index:]` keeps the suffix
starting AT the first `#` — the fragment and the delimiter survive and
everything before them is dropped — instead of the substring strictly
before the `#` that the spec describes (and that the source's own comment
on lines 85-86 announces). -/
theorem normalize_fragment_keeps_suffix :
    normalizeIdentifier (str "http://example.com/path#frag") = .ok (str "#frag") := by
  decide

/-- Claim C8, code evaluation at the failing input: on the empty
identifier the normalization phase reaches `identifier[0]` (line 79) with
an empty string and panics with an index-out-of-range runtime error; no
`EmptyIdentifier` error kind exists in the source and no error value is
returned. -/
theorem normalize_empty_panics :
    normalizeIdentifier (str "") = .panics := by
  decide

/-! ### Theorems about the redirect builder (C5) -/

/-- Claim C5: the redirect-building tail of `RedirectURI` substitutes the
identifier-select sentinel when the claimed identity is empty, joins with
`?` exactly when the endpoint contains no `?` (and with `&` otherwise),
and appends the URL-encoded `key=value` components of exactly the six
parameters of `redirectPairs` — in some order (the encoder sorts by key;
any permutation of the six pairs denotes the same parameter set). -/
theorem buildRedirect_query_exact (endpoint claimed realm returnPoint : Str) :
    ∃ L : List (Str × Str),
      L.Perm (redirectPairs (if claimed = [] then identifierSelect else claimed)
          realm returnPoint)
      ∧ buildRedirect endpoint claimed realm returnPoint
          = endpoint ++ (if containsChar '?' endpoint then ['&'] else ['?'])
            ++ joinAmp (L.map encodePair) := by
  refine ⟨(redirectPairs (if claimed = [] then identifierSelect else claimed)
      realm returnPoint).insertionSort keyLe, List.perm_insertionSort keyLe _, ?_⟩
  unfold buildRedirect valuesEncode
  by_cases h : containsChar '?' endpoint = true
  · simp [h, List.append_assoc]
  · simp [h, List.append_assoc]

/-! ### Theorems about XRDS extraction (C6) -/

/-- When two strings are both prefixes of a third and the first is no
longer than the second, the first is a prefix of the second. -/
theorem hasPrefixStr_of_both {p q t : Str} (hp : hasPrefixStr p t = true)
    (hq : hasPrefixStr q t = true) (h : p.length ≤ q.length) :
    hasPrefixStr p q = true := by
  induction p generalizing q t with
  | nil => rfl
  | cons a as ih =>
    cases t with
    | nil => simp [hasPrefixStr] at hp
    | cons b ts =>
      cases q with
      | nil => simp at h
      | cons c cs =>
        simp only [hasPrefixStr, Bool.and_eq_true, decide_eq_true_eq] at hp hq ⊢
        obtain ⟨hab, hp2⟩ := hp
        obtain ⟨hcb, hq2⟩ := hq
        exact ⟨hab.trans hcb.symm, ih hp2 hq2 (by simpa using h)⟩

/-- No type string starts with both the server type and the sign-on type:
the two role predicates of `getIdentifiers` are mutually exclusive. -/
theorem server_signon_exclusive {t : Str} (hs : hasPrefixStr serverType t = true)
    (hg : hasPrefixStr signonType t = true) : False := by
  have hb := hasPrefixStr_of_both hs hg (by decide)
  exact absurd hb (by decide)

/-- The fold of `getIdentifiers` keeps, for each role, the URI of the
last service whose type matches that role. -/
theorem getIdentifiers_foldl (l : List Service) :
    l.foldl
        (fun acc v =>
          if hasPrefixStr serverType v.type then (v.uri, acc.2)
          else if hasPrefixStr signonType v.type then (acc.1, v.uri)
          else acc)
        ([], [])
      = ( (((l.filter (fun v => hasPrefixStr serverType v.type)).getLast?).map
            Service.uri).getD [],
          (((l.filter (fun v => hasPrefixStr signonType v.type)).getLast?).map
            Service.uri).getD [] ) := by
  induction l using List.reverseRecOn with
  | nil => rfl
  | append_singleton l v ih =>
    rw [List.foldl_append, ih, List.foldl_cons, List.foldl_nil,
      List.filter_append, List.filter_append]
    by_cases hs : hasPrefixStr serverType v.type = true
    · have hg : ¬(hasPrefixStr signonType v.type = true) :=
        fun hg => server_signon_exclusive hs hg
      simp [hs, hg, List.getLast?_concat]
    · by_cases hg : hasPrefixStr signonType v.type = true
      · simp [hs, hg, List.getLast?_concat]
      · simp [hs, hg]

/-- Claim C6: `getIdentifiers` yields two empty strings when the XML
unmarshal failed (the unmarshal error is discarded, never returned), and
on any parsed service list each role's result is the URI of the last
entry in document order whose type starts with that role's type prefix —
later entries overwrite earlier ones whatever their `priority` attribute
says (the fold never reads `Service.priority`). -/
theorem getIdentifiers_last_match :
    getIdentifiers none = ([], [])
    ∧ ∀ l : List Service,
        (getIdentifiers (some l)).1
          = (((l.filter (fun v => hasPrefixStr serverType v.type)).getLast?).map
              Service.uri).getD []
        ∧ (getIdentifiers (some l)).2
          = (((l.filter (fun v => hasPrefixStr signonType v.type)).getLast?).map
              Service.uri).getD [] := by
  refine ⟨rfl, fun l => ?_⟩
  have h := getIdentifiers_foldl l
  unfold getIdentifiers
  exact ⟨congrArg Prod.fst h, congrArg Prod.snd h⟩

/-! ### Theorems about `discover`'s body handling (C9) -/

/-- Claim C9, code evaluation: `discover` closes no response body on any
exit path (the first conjunct: the closed-body list of a `discover`
invocation is empty whatever the response), so on the header-recursion
exit (the second conjunct, a concrete response whose `X-Xrds-Location`
header is set) the invocation's fetched body — id 7 — is neither closed
nor part of the return value: it is leaked. -/
theorem discover_closes_no_body :
    (∀ resp : HttpResp, (discoverStep resp).2 = [])
    ∧ discoverStep ⟨str "text/plain", str "https://x.example/xrds", some none, 7⟩
        = (.recurseHeader (str "https://x.example/xrds"), []) := by
  refine ⟨fun resp => ?_, by decide⟩
  obtain ⟨ct, loc, parse, bid⟩ := resp
  unfold discoverStep
  by_cases h1 : hasPrefixStr xrdsMime ct = true
  · simp [h1]
  · by_cases h2 : loc = []
    · by_cases h3 : hasPrefixStr (str "text/html") ct = true
      · cases parse with
        | none => simp [h1, h2, h3]
        | some m => cases m with
          | none => simp [h1, h2, h3]
          | some u => simp [h1, h2, h3]
      · simp [h1, h2, h3]
    · simp [h1, h2]

end OpenId
